import Mathlib

/-
Verification of the hyperloop compiler frontend (src/lib/hyperloop.js) against its
natural-language specification.

The development shallowly embeds the marker-recognition/rewrite engine:
the AST shape the code consumes (uglify-js nodes, with the lexical-scope data that
`figure_out_scope` attaches to symbol references flattened into the `ref` constructor),
the constant evaluator `toValue` / `evalExpression` / `makeArrayFromArg` /
`makeDictionaryFromArg` (lines 94-176), the reserved-symbol test (line 178), the
TreeTransformer callback (lines 247-296), the bottom-up tree transform, and the
driver's per-file pipeline and `codegen.generate` callback (lines 214-392).

Recursive functions take an explicit fuel argument so that every definition is
structurally recursive and kernel-evaluable on concrete inputs; fuel exhaustion
surfaces as a distinguished error that no theorem depends on.

The per-platform `SourceFile` class (`lib/<platform>/sourcefile.js`) and the `log`
module (`lib/log.js`) are not part of the repository sources available under src/;
the definitions that stand in for them are modelled from the spec and marked as such.
-/

/-- Source location carried by every AST node (`node.start`: file, line, col). -/
structure Pos where
  file : String
  line : Nat
  col : Nat
deriving Repr, DecidableEq

/-- The value payload of a literal AST node (`node.value` on uglify atoms:
strings, numbers, booleans and `null`). Numbers are modelled as integers. -/
inductive JSLit where
  | nullL
  | boolL (b : Bool)
  | numL (n : Int)
  | strL (s : String)
deriving Repr, DecidableEq

/-- The AST shape consumed by the compile command.  Lexical scope information is
embedded where the source reads it: a `ref` (uglify `AST_SymbolRef`) carries
`chain`, the bindings visible from the reference point as `find_variable` would
resolve them (name paired with the binding's initializer node, `none` for a
binding with no initializer), and `own`, the variables declared in the innermost
enclosing scope (uglify `scope.variables._values`, used by `evalExpression`).
`symbolConst` is the placeholder node the rewriter fabricates (`AST_SymbolConst`);
it has a `.name` but no attached scope. -/
inductive Node where
  | lit (v : JSLit) (pos : Pos)
  | arr (elems : List Node) (pos : Pos)
  | obj (props : List (String × Node)) (pos : Pos)
  | ref (name : String) (chain : List (String × Option Node))
      (own : List (String × Option Node)) (pos : Pos)
  | binary (op : String) (l : Node) (r : Node) (pos : Pos)
  | call (callee : Node) (args : List Node) (pos : Pos)
  | newE (callee : Node) (args : List Node) (pos : Pos)
  | dot (target : Node) (prop : String) (pos : Pos)
  | simpleStmt (body : Node) (pos : Pos)
  | toplevel (body : List Node) (pos : Pos)
  | symbolConst (name : String)
  | emptyStmt
deriving Repr

/-- Result of the constant evaluator: a JS value, or — where the source code
falls through all its field checks and hands the AST node object itself back —
the unresolved node (`nodev`). -/
inductive Res where
  | undefv
  | nullv
  | boolv (b : Bool)
  | numv (n : Int)
  | strv (s : String)
  | arrv (elems : List Res)
  | dictv (props : List (String × Res))
  | nodev (n : Node)
deriving Repr

/-- JS exceptions observable in the embedded fragment: `Error(msg)` thrown by the
code itself, `ReferenceError` raised by evaluating an unbound name, `TypeError`
raised by reading a property of `undefined`/`null`, and the fuel-exhaustion
marker of the embedding (raised by no real execution). -/
inductive JSError where
  | error (msg : String)
  | referenceError (name : String)
  | typeError (msg : String)
  | fuelExhausted
deriving Repr, DecidableEq

/-- ASCII single quote, kept out of string literals. -/
def sQuote : String := (Char.ofNat 39).toString

/-- `e.message` of an embedded JS exception. -/
def errMessage : JSError → String
  | .error m => m
  | .referenceError name => name ++ " is not defined"
  | .typeError m => m
  | .fuelExhausted => "recursion limit of the embedding reached"

/-- `node.start` of a node; placeholder/empty nodes fabricated by the rewriter
carry no position. -/
def startPos : Node → Pos
  | .lit _ p => p
  | .arr _ p => p
  | .obj _ p => p
  | .ref _ _ _ p => p
  | .binary _ _ _ p => p
  | .call _ _ p => p
  | .newE _ _ p => p
  | .dot _ _ p => p
  | .simpleStmt _ p => p
  | .toplevel _ p => p
  | .symbolConst _ => ⟨"", 0, 0⟩
  | .emptyStmt => ⟨"", 0, 0⟩

/-- The `.expression` field of a node (callee of calls and constructions, object
of a dot access); `none` models the field being `undefined`. -/
def jsExpression : Node → Option Node
  | .call c _ _ => some c
  | .newE c _ _ => some c
  | .dot t _ _ => some t
  | _ => none

/-- The `.args` field of a node; `none` models the field being `undefined`. -/
def jsArgs : Node → Option (List Node)
  | .call _ a _ => some a
  | .newE _ a _ => some a
  | _ => none

/-- `String(node.name)`: the `.name` field where present, and the string
`"undefined"` otherwise (matching the coercion a JS regex test applies). -/
def jsNameStr : Node → String
  | .ref nm _ _ _ => nm
  | .symbolConst nm => nm
  | _ => "undefined"

/-- The `.name` field of a call/new callee, if the node has one (bare
identifiers and fabricated placeholder symbols do; member expressions, nested
calls and literals do not). -/
def jsCalleeName : Node → Option String
  | .ref nm _ _ _ => some nm
  | .symbolConst nm => some nm
  | _ => none

/-- `scope.find_variable(name)`: walk the visible-binding list; `some init`
means a variable was found whose `.init` is `init` (`none` inside means the
binding has a null initializer); `none` means no binding exists. -/
def find_variable : List (String × Option Node) → String → Option (Option Node)
  | [], _ => none
  | (k, i) :: t, nm => if k = nm then some i else find_variable t nm

/-- JS truthiness of a literal value (`value.value` test in `toValue`). -/
def truthyLit : JSLit → Bool
  | .nullL => false
  | .boolL b => b
  | .numL n => n != 0
  | .strL s => s != ""

/-- A literal value as an evaluator result. -/
def litRes : JSLit → Res
  | .nullL => .nullv
  | .boolL b => .boolv b
  | .numL n => .numv n
  | .strL s => .strv s

/-- The `.value` field of a node as a JS value: literal nodes have it, every
other node kind yields `undefined`. -/
def valueField : Node → Res
  | .lit v _ => litRes v
  | _ => .undefv

/-- `makeArrayFromArg` (src/lib/hyperloop.js lines 97-105): push `a.value` for
each element of the node's `.elements`; a non-array argument, like an empty
array, leaves the accumulator empty.  Note the elements are not resolved
recursively — only their `.value` field is read. -/
def makeArrayFromArg (arg : Node) : List Res :=
  match arg with
  | .arr elems _ => elems.map valueField
  | _ => []

/-- Substring containment on character lists (semantics of an unanchored
JS regex alternative such as `/abc/.test(s)`). -/
def hasSubstr : List Char → List Char → Bool
  | [], pat => pat.isEmpty
  | l@(_ :: t), pat => pat.isPrefixOf l || hasSubstr t pat

/-- The alternatives of the `RESERVED_SYMBOLS` regex
`/(static|native|class|package|import)/` (src/lib/hyperloop.js line 178). -/
def RESERVED_SYMBOLS : List String := ["static", "native", "class", "package", "import"]

/-- `RESERVED_SYMBOLS.test(s)`: the regex is unanchored, so it matches whenever
any reserved word occurs as a substring of `s`. -/
def reservedTest (s : String) : Bool :=
  RESERVED_SYMBOLS.any (fun w => hasSubstr s.toList w.toList)

/-- A JS word character (regex `\w`). -/
def isWordChar (c : Char) : Bool := c.isAlpha || c.isDigit || c = '_'

/-- The literal tail of the message pattern in the regex
`/(\w) is not defined/` (src/lib/hyperloop.js line 158). -/
def notDefinedChars : List Char := " is not defined".toList

/-- Left-to-right scan of `/(\w) is not defined/`: the first word character
immediately followed by the literal text is captured.  Because the capture
group is a single `\w`, a multi-character identifier contributes only its
final character. -/
def captureGo : List Char → Option Char
  | [] => none
  | c :: rest =>
      if isWordChar c && notDefinedChars.isPrefixOf rest then some c else captureGo rest

/-- `r.exec(message)` for `r = /(\w) is not defined/`, returning the single
captured character. -/
def captureNotDefined (msg : String) : Option Char :=
  captureGo msg.toList

/-- uglify's `Dictionary` stores keys with a `$` sigil; `variables._values`
therefore enumerates `$name` keys, which line 149 strips with `substring(1)`. -/
def dictValues (own : List (String × Option Node)) : List (String × Option Node) :=
  own.map (fun kv => ("$" ++ kv.1, kv.2))

/-- The scope-collection loop of `evalExpression` (lines 147-151): for each
variable of the scope dictionary read `vars[k].init.value` — a binding with a
null initializer makes that property read throw, and a non-literal initializer
contributes `undefined` — and bind it under `k.substring(1)`.  The loop runs
outside the `try`, so its exceptions propagate unhandled. -/
def collectScope : List (String × Option Node) → Except JSError (List (String × Res))
  | [] => .ok []
  | (_, none) :: _ =>
      .error (.typeError ("Cannot read properties of null (reading " ++ sQuote ++ "value" ++ sQuote ++ ")"))
  | (k, some init) :: t => do
      let rest ← collectScope t
      .ok ((k.drop 1, valueField init) :: rest)

/-- Association-list lookup for the evaluation environment. -/
def lookupEnv : List (String × Res) → String → Option Res
  | [], _ => none
  | (k, v) :: t, nm => if k = nm then some v else lookupEnv t nm

/-- JS `ToString` on the value shapes the embedded evaluator produces. -/
def jsToString : Res → String
  | .undefv => "undefined"
  | .nullv => "null"
  | .boolv b => cond b "true" "false"
  | .numv n => toString n
  | .strv s => s
  | .arrv _ => ""
  | .dictv _ => "[object Object]"
  | .nodev _ => "[object Object]"

/-- JS binary operators as `eval` applies them, for the operator/operand
combinations compile-time marker arguments exercise: `+` concatenates when
either side is a string and adds numbers, `-` and `*` are numeric.  Other
combinations are outside the modelled fragment. -/
def jsBinop (op : String) (a b : Res) : Except JSError Res :=
  if op = "+" then
    match a, b with
    | .strv s, _ => .ok (.strv (s ++ jsToString b))
    | _, .strv s => .ok (.strv (jsToString a ++ s))
    | .numv x, .numv y => .ok (.numv (x + y))
    | _, _ => .error (.error "operand combination outside the modelled fragment")
  else if op = "-" then
    match a, b with
    | .numv x, .numv y => .ok (.numv (x - y))
    | _, _ => .error (.error "operand combination outside the modelled fragment")
  else if op = "*" then
    match a, b with
    | .numv x, .numv y => .ok (.numv (x * y))
    | _, _ => .error (.error "operand combination outside the modelled fragment")
  else .error (.error "operator outside the modelled fragment")

/-- Evaluation of the reconstructed expression text under the collected scope,
with JS left-to-right operand order: a name not bound by the collected scope
raises `ReferenceError: <name> is not defined`.  (The source rebuilds the text
as `left.print_to_string() + operator + right.print_to_string()` and `eval`s
it; on the flat literal/identifier operands that marker arguments use, that is
the same evaluation.  Reconstruction can reassociate deeply nested operands,
but leaf evaluation order — and hence which unbound name fails first — is the
textual order either way, and no claim concerns nested-operand values.) -/
def jsEval (env : List (String × Res)) : Node → Except JSError Res
  | .lit v _ => .ok (litRes v)
  | .ref nm _ _ _ =>
      match lookupEnv env nm with
      | some r => .ok r
      | none => .error (.referenceError nm)
  | .binary op l r _ => do
      let a ← jsEval env l
      let b ← jsEval env r
      jsBinop op a b
  | _ => .error (.error "expression form outside the modelled fragment")

/-- `node.expression.scope ? node.expression.scope.variables._values :
node.expression.expression.scope.variables._values` (line 144).  Only symbol
nodes carry a `.scope` after `figure_out_scope`.  When `node` is a call whose
callee is a symbol reference, the callee's scope dictionary results.  When
`node` is a simple statement — which has a `.body` but no `.expression` — the
property access throws a `TypeError`.  For a call whose callee is a member
access on a symbol, the fallback branch reads the inner symbol's scope. -/
def ctxScopeVars : Node → Except JSError (List (String × Option Node))
  | .call (.ref _ _ own _) _ _ => .ok (dictValues own)
  | .call (.dot (.ref _ _ own _) _ _) _ _ => .ok (dictValues own)
  | _ =>
      .error (.typeError ("Cannot read properties of undefined (reading " ++ sQuote ++ "scope" ++ sQuote ++ ")"))

/-- `evalExpression` (src/lib/hyperloop.js lines 141-165): collect the
context's innermost-scope variables into an argument table (both steps outside
the `try`), evaluate the reconstructed binary expression, and on failure run
`/(\w) is not defined/` over the exception message — re-raising as a compile
error that quotes the single captured character — or re-throw unchanged. -/
def evalExpression (node arg : Node) : Except JSError Res :=
  match ctxScopeVars node with
  | .error e => .error e
  | .ok vars =>
    match collectScope vars with
    | .error e => .error e
    | .ok scope =>
      match arg with
      | .binary op l r p =>
          match jsEval scope (.binary op l r p) with
          | .ok v => .ok v
          | .error e =>
              match captureNotDefined (errMessage e) with
              | some c =>
                  .error (.error ("can" ++ sQuote ++ "t seem to determine value of " ++ sQuote ++ c.toString
                    ++ sQuote ++ " during import at " ++ (startPos node).file ++ " on line "
                    ++ toString (startPos node).line))
              | none => .error e
      | _ => .error (.error "expression form outside the modelled fragment")

/-- Insert-or-overwrite on an association list (JS object assignment:
a repeated key keeps its position and takes the last written value). -/
def assocSet : List (String × Res) → String → Res → List (String × Res)
  | [], k, v => [(k, v)]
  | (k', v') :: t, k, v => if k' = k then (k', v) :: t else (k', v') :: assocSet t k v

/-- Fold a sequence of property writes into a JS object (last write wins). -/
def buildDict (l : List (String × Res)) : List (String × Res) :=
  l.foldl (fun acc kv => assocSet acc kv.1 kv.2) []

/-- The property loop of `makeDictionaryFromArg` (lines 170-176), abstracted
over the recursive value resolver: `obj[p.key] = toValue(p.value, node)` for
each entry of `arg.properties`; a non-object argument has no `.properties`
and the `forEach` call throws a `TypeError`. -/
def makeDictionaryFromArgAux (tv : Node → Node → Except JSError Res) (arg node : Node) :
    Except JSError (List (String × Res)) :=
  match arg with
  | .obj props _ => do
      let l ← props.mapM (fun p => do
        let r ← tv p.2 node
        pure (p.1, r))
      .ok (buildDict l)
  | _ =>
      .error (.typeError ("Cannot read properties of undefined (reading " ++ sQuote ++ "forEach" ++ sQuote ++ ")"))

/-- `toValue` (src/lib/hyperloop.js lines 110-136), fuelled on the recursion
depth.  The source tests the node's fields in order: `.elements` (arrays,
truthy even when empty), `.properties` (objects), `.value` — a TRUTHINESS
test, so a falsy literal value falls through — `.name` (scope lookup of the
binding, recursing into its initializer; a missing binding throws, a null
initializer re-enters `toValue` with `null` which returns `null`), then
`.left && .right && .operator` (handed to `evalExpression`); any node
matching none of the tests is returned unchanged (`nodev`). -/
def toValue : Nat → Node → Node → Except JSError Res
  | 0, _, _ => .error .fuelExhausted
  | fuel + 1, value, node =>
    match value with
    | .arr elems p => .ok (.arrv (makeArrayFromArg (.arr elems p)))
    | .obj props p => do
        let d ← makeDictionaryFromArgAux (toValue fuel) (.obj props p) node
        .ok (.dictv d)
    | .lit l p => if truthyLit l then .ok (litRes l) else .ok (.nodev (.lit l p))
    | .ref nm chain own p =>
        if nm = "" then .ok (.nodev (.ref nm chain own p))
        else
          match find_variable chain nm with
          | none =>
              .error (.error ("Couldn" ++ sQuote ++ "t find variable named: " ++ nm ++ " at "
                ++ p.file ++ " on " ++ toString p.line ++ ":" ++ toString p.col))
          | some none => .ok .nullv
          | some (some init) => toValue fuel init node
    | .symbolConst nm =>
        if nm = "" then .ok (.nodev (.symbolConst nm))
        else
          .error (.typeError ("Cannot read properties of undefined (reading "
            ++ sQuote ++ "find_variable" ++ sQuote ++ ")"))
    | .binary op l r p =>
        if op = "" then .ok (.nodev (.binary op l r p)) else evalExpression node (.binary op l r p)
    | v => .ok (.nodev v)

/-- `makeDictionaryFromArg` (lines 170-176) at a given recursion fuel for the
nested `toValue` calls. -/
def makeDictionaryFromArg (fuel : Nat) (arg node : Node) : Except JSError (List (String × Res)) :=
  makeDictionaryFromArgAux (toValue fuel) arg node

/-- Modelled from the spec: the per-platform `SourceFile` class
(`lib/<platform>/sourcefile.js`) is not under src/.  Spec section 3 gives its
declaration lists (`packageDecl` at most one value; `classDecls`, `staticDecls`,
`nativeDecls` — always key-to-value mappings —, `importDecls` with duplicates
permitted, `instantiations` as {generatedSymbol, originalClassName, location},
`callSites` as {generatedSymbol, originalFunctionName, rawArgumentText,
location}), deterministic unique-within-unit symbol generation, and the
`finish` step that freezes the unit (section 4.3). -/
structure SourceFile where
  relativeFilename : String
  packageDecl : Option Res := none
  classDecls : List Res := []
  staticDecls : List Res := []
  nativeDecls : List (List (String × Res)) := []
  importDecls : List Res := []
  instantiations : List (String × String × Pos) := []
  callSites : List (String × String × List String × Pos) := []
  nextSymbol : Nat := 0
  finished : Bool := false
deriving Repr

/-- A fresh `SourceFile` for one input file (line 242 of the driver). -/
def emptySourceFile (fn : String) : SourceFile := { relativeFilename := fn }

/-- Modelled from the spec: deterministic generated-symbol naming, unique
within the unit (spec section 3, GeneratedSymbol). -/
def genSymbol (sf : SourceFile) : String := "hl$" ++ toString sf.nextSymbol

/-- Modelled from the spec: `sourcefile.processPackage` records the unit's
(at most one) package declaration. -/
def processPackage (sf : SourceFile) (v : Res) : SourceFile :=
  { sf with packageDecl := some v }

/-- Modelled from the spec: `sourcefile.processClass` appends a class
declaration. -/
def processClass (sf : SourceFile) (v : Res) : SourceFile :=
  { sf with classDecls := sf.classDecls ++ [v] }

/-- Modelled from the spec: `sourcefile.processStatic` appends a static
declaration. -/
def processStatic (sf : SourceFile) (v : Res) : SourceFile :=
  { sf with staticDecls := sf.staticDecls ++ [v] }

/-- Modelled from the spec: `sourcefile.processNative` appends a native
declaration (always an object mapping). -/
def processNative (sf : SourceFile) (d : List (String × Res)) : SourceFile :=
  { sf with nativeDecls := sf.nativeDecls ++ [d] }

/-- Modelled from the spec: `sourcefile.processImport` appends an import
declaration; duplicates are preserved (spec section 9). -/
def processImport (sf : SourceFile) (v : Res) : SourceFile :=
  { sf with importDecls := sf.importDecls ++ [v] }

/-- Modelled from the spec: `sourcefile.processNewClass` generates a fresh
symbol, records an instantiations entry {symbol, className, location} and
returns the symbol. -/
def processNewClass (sf : SourceFile) (nm : String) (pos : Pos) : String × SourceFile :=
  (genSymbol sf,
   { sf with instantiations := sf.instantiations ++ [(genSymbol sf, nm, pos)],
             nextSymbol := sf.nextSymbol + 1 })

/-- Modelled from the spec: `sourcefile.processFunction` generates a fresh
symbol, records a callSites entry {symbol, functionName, rawArgumentText,
location} and returns the symbol. -/
def processFunction (sf : SourceFile) (nm : String) (args : List String) (pos : Pos) :
    String × SourceFile :=
  (genSymbol sf,
   { sf with callSites := sf.callSites ++ [(genSymbol sf, nm, args, pos)],
             nextSymbol := sf.nextSymbol + 1 })

/-- Modelled from the spec: `sourcefile.finish(finalText)` freezes the unit
once output text has been produced (spec section 4.3). -/
def finishUnit (sf : SourceFile) : SourceFile := { sf with finished := true }

/-- `node.print_to_string()` for the embedded node shapes (uglify's
non-beautified printer on a detached subtree), fuelled on depth.  Used by the
rewriter to capture call-argument text (lines 289-291) and to render the
fabricated placeholder symbols. -/
def printNode : Nat → Node → String
  | 0, _ => ""
  | fuel + 1, node =>
    match node with
    | .lit (.numL n) _ => toString n
    | .lit (.strL s) _ => "\"" ++ s ++ "\""
    | .lit (.boolL b) _ => cond b "true" "false"
    | .lit .nullL _ => "null"
    | .ref nm _ _ _ => nm
    | .symbolConst nm => nm
    | .binary op l r _ => printNode fuel l ++ op ++ printNode fuel r
    | .dot t pr _ => printNode fuel t ++ "." ++ pr
    | .call c args _ =>
        printNode fuel c ++ "(" ++ String.intercalate "," (args.map (printNode fuel)) ++ ")"
    | .newE c args _ =>
        "new " ++ printNode fuel c ++ "(" ++ String.intercalate "," (args.map (printNode fuel)) ++ ")"
    | .arr elems _ => "[" ++ String.intercalate "," (elems.map (printNode fuel)) ++ "]"
    | .obj props _ =>
        "\x7b" ++ String.intercalate "," (props.map (fun p => p.1 ++ ":" ++ printNode fuel p.2)) ++ "\x7d"
    | .simpleStmt b _ => printNode fuel b ++ ";"
    | .toplevel stmts _ => String.join (stmts.map (printNode fuel))
    | .emptyStmt => ";"

/-- The TreeTransformer callback (src/lib/hyperloop.js lines 247-296), run on
one node after its children have been transformed.  Returns the updated source
file and the replacement node, if the callback returns one.

* `AST_SimpleStatement` (lines 249-277): if `node.body.expression` exists, its
  `.name` passes the `RESERVED_SYMBOLS` regex test and `node.body.args` is a
  non-empty list, switch on the exact name: `package`/`class`/`static`/`import`
  resolve the first argument with `toValue(arg, node)`, `native` forces it
  through `makeDictionaryFromArg(arg, node.body)`; each records into the source
  file and replaces the statement with `AST_EmptyStatement`.  A name that only
  passed the regex as a substring falls out of the switch unchanged.  No scope
  lookup is performed in this branch.
* `AST_New` (lines 278-284): a callee with a truthy `.name` and no binding in
  the callee's scope records an instantiation and is replaced by an
  `AST_SymbolConst` named `<symbol>()`.  A fabricated `symbolConst` callee has
  a name but no `.scope`, so the `find_variable` access throws.
* `AST_Call` (lines 285-295): a callee with a truthy `.name` that fails the
  reserved-regex test and has no binding has its arguments printed, records a
  call site, and is replaced by an `AST_SymbolConst` named
  `<symbol>(<printed args comma-joined>)`. -/
def transformNode (fuel : Nat) (sf : SourceFile) (node : Node) :
    Except JSError (SourceFile × Option Node) :=
  match node with
  | .simpleStmt body _ =>
      match jsExpression body with
      | none => .ok (sf, none)
      | some callee =>
          if reservedTest (jsNameStr callee) then
            match jsArgs body with
            | some (arg :: _) =>
                match jsNameStr callee with
                | "package" => do
                    let v ← toValue fuel arg node
                    .ok (processPackage sf v, some .emptyStmt)
                | "class" => do
                    let v ← toValue fuel arg node
                    .ok (processClass sf v, some .emptyStmt)
                | "static" => do
                    let v ← toValue fuel arg node
                    .ok (processStatic sf v, some .emptyStmt)
                | "native" => do
                    let d ← makeDictionaryFromArg fuel arg body
                    .ok (processNative sf d, some .emptyStmt)
                | "import" => do
                    let v ← toValue fuel arg node
                    .ok (processImport sf v, some .emptyStmt)
                | _ => .ok (sf, none)
            | _ => .ok (sf, none)
          else .ok (sf, none)
  | .newE callee _ pos =>
      match callee with
      | .ref nm chain _ _ =>
          if nm ≠ "" ∧ (find_variable chain nm).isNone then
            let (sym, sf') := processNewClass sf nm pos
            .ok (sf', some (.symbolConst (sym ++ "()")))
          else .ok (sf, none)
      | .symbolConst nm =>
          if nm ≠ "" then
            .error (.typeError ("Cannot read properties of undefined (reading "
              ++ sQuote ++ "find_variable" ++ sQuote ++ ")"))
          else .ok (sf, none)
      | _ => .ok (sf, none)
  | .call callee args pos =>
      match callee with
      | .ref nm chain _ _ =>
          if nm ≠ "" ∧ reservedTest nm = false ∧ (find_variable chain nm).isNone then
            let printed := args.map (printNode fuel)
            let (sym, sf') := processFunction sf nm printed pos
            .ok (sf', some (.symbolConst (sym ++ "(" ++ String.intercalate "," printed ++ ")")))
          else .ok (sf, none)
      | .symbolConst nm =>
          if nm ≠ "" ∧ reservedTest nm = false then
            .error (.typeError ("Cannot read properties of undefined (reading "
              ++ sQuote ++ "find_variable" ++ sQuote ++ ")"))
          else .ok (sf, none)
      | _ => .ok (sf, none)
  | _ => .ok (sf, none)

/-- Apply the callback to a node whose children are already transformed: a
thrown error leaves the source file as mutated so far; an `undefined` return
keeps the node; a returned node replaces it (and is not revisited). -/
def applyNode (fuel : Nat) (sf : SourceFile) (node : Node) : SourceFile × Except JSError Node :=
  match transformNode fuel sf node with
  | .error e => (sf, .error e)
  | .ok (sf', none) => (sf', .ok node)
  | .ok (sf', some repl) => (sf', .ok repl)

/-- `ast.transform(transformer)` (line 299) with the transformer of lines
247-296: since the transformer has no `before` callback, every node's children
are transformed first (expression before args, left before right, list order
left to right), the node is rebuilt, and the `after` callback is applied to
the rebuilt node.  The source-file accumulator threads through in visit order
— mirroring the in-place mutation of the JS object — and is returned even when
the traversal throws. -/
def transform : Nat → SourceFile → Node → SourceFile × Except JSError Node
  | 0, sf, _ => (sf, .error .fuelExhausted)
  | fuel + 1, sf, node =>
    let tList : SourceFile → List Node → SourceFile × Except JSError (List Node) :=
      fun sf0 l =>
        l.foldl
          (fun acc n =>
            match acc with
            | (sfa, .error e) => (sfa, .error e)
            | (sfa, .ok done) =>
                match transform fuel sfa n with
                | (sfb, .error e) => (sfb, .error e)
                | (sfb, .ok n') => (sfb, .ok (done ++ [n'])))
          (sf0, .ok [])
    let tProps : SourceFile → List (String × Node) →
        SourceFile × Except JSError (List (String × Node)) :=
      fun sf0 l =>
        l.foldl
          (fun acc p =>
            match acc with
            | (sfa, .error e) => (sfa, .error e)
            | (sfa, .ok done) =>
                match transform fuel sfa p.2 with
                | (sfb, .error e) => (sfb, .error e)
                | (sfb, .ok v') => (sfb, .ok (done ++ [(p.1, v')])))
          (sf0, .ok [])
    match node with
    | .toplevel stmts p =>
        match tList sf stmts with
        | (sf', .error e) => (sf', .error e)
        | (sf', .ok stmts') => applyNode fuel sf' (.toplevel stmts' p)
    | .simpleStmt b p =>
        match transform fuel sf b with
        | (sf', .error e) => (sf', .error e)
        | (sf', .ok b') => applyNode fuel sf' (.simpleStmt b' p)
    | .call c args p =>
        match transform fuel sf c with
        | (sf1, .error e) => (sf1, .error e)
        | (sf1, .ok c') =>
            match tList sf1 args with
            | (sf2, .error e) => (sf2, .error e)
            | (sf2, .ok args') => applyNode fuel sf2 (.call c' args' p)
    | .newE c args p =>
        match transform fuel sf c with
        | (sf1, .error e) => (sf1, .error e)
        | (sf1, .ok c') =>
            match tList sf1 args with
            | (sf2, .error e) => (sf2, .error e)
            | (sf2, .ok args') => applyNode fuel sf2 (.newE c' args' p)
    | .binary op l r p =>
        match transform fuel sf l with
        | (sf1, .error e) => (sf1, .error e)
        | (sf1, .ok l') =>
            match transform fuel sf1 r with
            | (sf2, .error e) => (sf2, .error e)
            | (sf2, .ok r') => applyNode fuel sf2 (.binary op l' r' p)
    | .arr elems p =>
        match tList sf elems with
        | (sf', .error e) => (sf', .error e)
        | (sf', .ok elems') => applyNode fuel sf' (.arr elems' p)
    | .obj props p =>
        match tProps sf props with
        | (sf', .error e) => (sf', .error e)
        | (sf', .ok props') => applyNode fuel sf' (.obj props' p)
    | .dot t pr p =>
        match transform fuel sf t with
        | (sf', .error e) => (sf', .error e)
        | (sf', .ok t') => applyNode fuel sf' (.dot t' pr p)
    | leaf => applyNode fuel sf leaf

/-- Driver-visible state of one compile run: the units handed to the backend
via `codegen.addSource` (in call order, each reflecting the final state of the
mutable unit object the backend holds a reference to), the in-memory
`fileCache` table, whether the persisted cache file has been written, and the
process exit code once the run has terminated. -/
structure DriverState where
  backendSources : List SourceFile := []
  fileCache : List (String × String × SourceFile) := []
  cacheWritten : Bool := false
  exitCode : Option Nat := none
deriving Repr

/-- `fileCache[jsfilename] = {sourceHash, sourcefile}` (lines 378-381):
insert-or-overwrite keyed by the normalized file name. -/
def cacheSet : List (String × String × SourceFile) → String → String × SourceFile →
    List (String × String × SourceFile)
  | [], k, v => [(k, v.1, v.2)]
  | (k', h', s') :: t, k, v =>
      if k' = k then (k', v.1, v.2) :: t else (k', h', s') :: cacheSet t k v

/-- One file through the cache-miss path of the driver loop (lines 236-381):
create the `SourceFile`, hand it to the backend (`codegen.addSource`, line 245
— before any transformation), run the marker transform inside `try/catch`, and
on success `finish` the unit and record it in the in-memory cache table.  On a
thrown error the catch calls `log.error` — modelled from the spec (section 7:
an `UnresolvedReference` is fatal; `lib/log.js` is not under src/) as
terminating the run with a non-zero exit — so the cache record and everything
after it never happen.  The unit handed to the backend is an alias of the
mutable object, so the backend observes whatever declaration state the
transform reached. -/
def processFileFresh (fuel : Nat) (st : DriverState) (jsfilename sourceHash : String)
    (ast : Node) : DriverState :=
  if st.exitCode.isSome then st
  else
    let r := transform fuel (emptySourceFile jsfilename) ast
    match r.2 with
    | .error _ =>
        { st with backendSources := st.backendSources ++ [r.1], exitCode := some 1 }
    | .ok _ =>
        let fin := finishUnit r.1
        { st with backendSources := st.backendSources ++ [fin],
                  fileCache := cacheSet st.fileCache jsfilename (sourceHash, fin) }

/-- JS truthiness of the `file` / `err` callback arguments (a missing or empty
changed-file marker is falsy). -/
def truthyOpt : Option String → Bool
  | none => false
  | some s => s != ""

/-- The `codegen.generate` callback (src/lib/hyperloop.js lines 384-392): when
`err` is set, `log.error` reports it — modelled from the spec (section 6: the
driver terminates the process with a non-zero status if `error` is set;
`lib/log.js` is not under src/) — so the cache write is never reached; when
`file` (the changed-file marker) is truthy, the cache table is persisted with
`fs.writeFileSync`; either way a completed callback exits with status 0. -/
def generateCallback (st : DriverState) (err : Option String) (file : Option String) :
    DriverState :=
  if st.exitCode.isSome then st
  else if err.isSome then { st with exitCode := some 1 }
  else if truthyOpt file then { st with cacheWritten := true, exitCode := some 0 }
  else { st with exitCode := some 0 }

/-- A fixed source position for the concrete example inputs. -/
def pEx : Pos := ⟨"app.hjs", 1, 1⟩

/-- A fresh source unit for the concrete example inputs. -/
def sfEx : SourceFile := emptySourceFile "app"

/-- A statement node used as evaluation context where the context is irrelevant. -/
def ctxEx : Node := .simpleStmt (.lit (.numL 1) pEx) pEx

/-- A scope in which `native` is bound to a local variable (`var native = 1`). -/
def chainN : List (String × Option Node) := [("native", some (.lit (.numL 1) pEx))]

/-- The statement `native({a:"b"});` with the callee name shadowed by the local
binding of `chainN`. -/
def shadowedNativeStmt : Node :=
  .simpleStmt (.call (.ref "native" chainN [] pEx)
    [.obj [("a", .lit (.strL "b") pEx)] pEx] pEx) pEx

/-- The call `classify(1)` with `classify` unbound: its name contains the
reserved word `class` as a substring. -/
def classifyCall : Node := .call (.ref "classify" [] [] pEx) [.lit (.numL 1) pEx] pEx

/-- A marker call in whose callee scope no variables are declared, used as the
evaluation context of `evalExpression` examples. -/
def c6ctx : Node := .call (.ref "native" [] [] pEx) [] pEx

/-- The binary marker argument `"a" + foo` with `foo` unbound. -/
def c6arg : Node := .binary "+" (.lit (.strL "a") pEx) (.ref "foo" [] [] pEx) pEx

/-- The statement `native({a:"b"});` with `native` unbound (a genuine marker). -/
def nativeStmtOk : Node :=
  .simpleStmt (.call (.ref "native" [] [] pEx) [.obj [("a", .lit (.strL "b") pEx)] pEx] pEx) pEx

/-- The statement `import(x);` where `x` has no binding, so resolving the
marker argument throws. -/
def importBadStmt : Node :=
  .simpleStmt (.call (.ref "import" [] [] pEx) [.ref "x" [] [] pEx] pEx) pEx

/-- A file whose first marker succeeds and whose second marker fails to
resolve: the unit is left partially declared when the transform throws. -/
def badAst : Node := .toplevel [nativeStmtOk, importBadStmt] pEx

/-- The state the partially-declared unit of `badAst` is left in when the
transform aborts: the first marker has been recorded, `finish` never ran. -/
def incompleteUnit : SourceFile :=
  { emptySourceFile "app" with nativeDecls := [[("a", Res.strv "b")]] }

/-- The call `bar(x+1, "s")` with `bar` unbound and `x` a bound outer variable. -/
def barCall : Node :=
  .call (.ref "bar" [] [] pEx)
    [.binary "+" (.ref "x" [("x", some (.lit (.numL 5) pEx))] [] pEx) (.lit (.numL 1) pEx) pEx,
     .lit (.strL "s") pEx] pEx

/-- The constructor expression `new Foo(9)` with `Foo` unbound. -/
def fooNew : Node := .newE (.ref "Foo" [] [] pEx) [.lit (.numL 9) pEx] pEx

/-- The member call `obj.method(1)`: its callee is a dot expression, not a bare
identifier. -/
def memberCall : Node :=
  .call (.dot (.ref "obj" [("obj", some (.lit (.numL 1) pEx))] [] pEx) "method" pEx)
    [.lit (.numL 1) pEx] pEx

theorem isPrefixOf_self (l : List Char) : l.isPrefixOf l = true := by
  induction l with
  | nil => rfl
  | cons a t ih => simp [List.isPrefixOf, ih]

theorem notdef_not_prefix_of_word (y : Char) (l : List Char) (hy : isWordChar y = true) :
    notDefinedChars.isPrefixOf (y :: l) = false := by
  have hys : y ≠ ' ' := by
    intro h
    subst h
    exact absurd hy (by decide)
  have hnd : notDefinedChars = ' ' :: "is not defined".toList := by decide
  have hbeq : (' ' == y) = false := beq_eq_false_iff_ne.mpr (Ne.symm hys)
  rw [hnd]
  simp [List.isPrefixOf, hbeq]

theorem captureGo_name (ws : List Char) (c : Char)
    (hws : ∀ x ∈ ws, isWordChar x = true) (hc : isWordChar c = true) :
    captureGo (ws ++ c :: notDefinedChars) = some c := by
  induction ws with
  | nil => simp [captureGo, hc, isPrefixOf_self]
  | cons x t ih =>
      have hnotpre : notDefinedChars.isPrefixOf (t ++ c :: notDefinedChars) = false := by
        cases t with
        | nil => simpa using notdef_not_prefix_of_word c notDefinedChars hc
        | cons y t' =>
            have hy : isWordChar y = true := hws y (by simp)
            simpa using notdef_not_prefix_of_word y (t' ++ c :: notDefinedChars) hy
      simp [captureGo, hnotpre]
      exact ih (fun z hz => hws z (by simp [hz]))

theorem mapM_congr {α β : Type} {f g : α → Except JSError β} :
    ∀ l : List α, (∀ a ∈ l, f a = g a) → l.mapM f = l.mapM g := by
  intro l h
  induction l with
  | nil => rfl
  | cons a t ih =>
      rw [List.mapM_cons, List.mapM_cons, h a (by simp), ih (fun z hz => h z (by simp [hz]))]

theorem evalExpression_congr {ctx ctx' : Node} (arg : Node)
    (h1 : ctxScopeVars ctx = ctxScopeVars ctx') (h2 : startPos ctx = startPos ctx') :
    evalExpression ctx arg = evalExpression ctx' arg := by
  unfold evalExpression
  rw [h1, h2]

theorem makeDictionaryFromArgAux_congr {tv tv' : Node → Node → Except JSError Res}
    {ctx ctx' : Node} (arg : Node) (h : ∀ v, tv v ctx = tv' v ctx') :
    makeDictionaryFromArgAux tv arg ctx = makeDictionaryFromArgAux tv' arg ctx' := by
  unfold makeDictionaryFromArgAux
  cases arg with
  | obj props p =>
      have hm : props.mapM (fun q => do let r ← tv q.2 ctx; pure (q.1, r))
          = props.mapM (fun q => do let r ← tv' q.2 ctx'; pure (q.1, r)) :=
        mapM_congr props (fun a _ => by rw [h a.2])
      simp only [hm]
  | _ => rfl

theorem toValue_ctx_congr {ctx ctx' : Node}
    (h1 : ctxScopeVars ctx = ctxScopeVars ctx') (h2 : startPos ctx = startPos ctx') :
    ∀ (fuel : Nat) (v : Node), toValue fuel v ctx = toValue fuel v ctx' := by
  intro fuel
  induction fuel with
  | zero => intro v; rfl
  | succ n ih =>
      intro v
      cases v with
      | obj props p =>
          simp only [toValue]
          rw [makeDictionaryFromArgAux_congr _ (fun w => ih w)]
      | ref nm chain own p =>
          by_cases hnm : nm = ""
          · simp [toValue, hnm]
          · cases hfv : find_variable chain nm with
            | none => simp [toValue, hnm, hfv]
            | some oi =>
                cases oi with
                | none => simp [toValue, hnm, hfv]
                | some init => simp [toValue, hnm, hfv, ih]
      | binary op l r p =>
          by_cases hop : op = ""
          · simp [toValue, hop]
          · simp only [toValue]
            rw [if_neg hop, if_neg hop]
            exact evalExpression_congr _ h1 h2
      | _ => rfl

/-- Claim C3 counterexample: `classify(1)` with `classify` unbound — the name
is outside the exact reserved set `{package, class, static, native, import}`,
yet the rewriter leaves the call unchanged and records nothing, because the
unanchored regex matches the substring `class`. -/
theorem C3_counterexample :
    transformNode 2 sfEx classifyCall = .ok (sfEx, none)
  ∧ find_variable [] "classify" = none
  ∧ "classify" ∉ RESERVED_SYMBOLS
  ∧ reservedTest "classify" = true :=
  ⟨rfl, rfl, by decide, by decide⟩

/-- Claim C3 (amended): a function call with a bare-identifier callee is
rewritten to a native call-site placeholder if and only if the callee name is
truthy, fails the unanchored `RESERVED_SYMBOLS` regex test — i.e. contains
none of the reserved words as a substring — and has no lexical binding. -/
theorem C3_rewrite_iff (fuel : Nat) (sf : SourceFile) (nm : String)
    (chain own : List (String × Option Node)) (p pos : Pos) (args : List Node) :
    (∃ sf' repl,
        transformNode fuel sf (.call (.ref nm chain own p) args pos) = .ok (sf', some repl))
      ↔ (nm ≠ "" ∧ reservedTest nm = false ∧ (find_variable chain nm).isNone = true) := by
  simp only [transformNode]
  by_cases h : nm ≠ "" ∧ reservedTest nm = false ∧ (find_variable chain nm).isNone
  · simp only [if_pos h]
    constructor
    · intro _; exact ⟨h.1, h.2.1, h.2.2⟩
    · intro _; exact ⟨_, _, rfl⟩
  · simp only [if_neg h]
    constructor
    · rintro ⟨sf', repl, heq⟩
      exact absurd (congrArg (fun x => match x with
        | Except.ok (_, some _) => true
        | _ => false) heq) (by simp)
    · intro hcond; exact absurd ⟨hcond.1, hcond.2.1, hcond.2.2⟩ h

/-- Claim C4 counterexample: the nested array `[["x"]]` resolves to
`[undefined]` — the element's `.value` field — even though the inner array
resolves on its own to `["x"]`; elements are not recursively resolved. -/
theorem C4_counterexample :
    toValue 3 (.arr [.arr [.lit (.strL "x") pEx] pEx] pEx) ctxEx = .ok (.arrv [.undefv])
  ∧ toValue 3 (.arr [.lit (.strL "x") pEx] pEx) ctxEx = .ok (.arrv [.strv "x"])
  ∧ Res.undefv ≠ Res.arrv [.strv "x"] :=
  ⟨rfl, rfl, fun h => nomatch h⟩

/-- Claim C4 (amended): an array node resolves to the ordered sequence of each
element's literal `.value` field — `undefined` for elements that are not plain
literals — preserving element order; elements are not recursively resolved. -/
theorem C4_array_value_fields (fuel : Nat) (elems : List Node) (pos : Pos) (ctx : Node) :
    toValue (fuel + 1) (.arr elems pos) ctx = .ok (.arrv (elems.map valueField)) :=
  rfl

/-- Claim C5: the code evaluated at the failing inputs — a literal node whose
value is falsy (`0`, `""`, `false`, `null`) falls through the truthiness test
`value.value` and `toValue` hands back the AST node object itself instead of
the literal value, while a truthy literal such as `7` resolves correctly. -/
theorem C5_falsy_literal_returns_node :
    toValue 1 (.lit (.numL 0) pEx) ctxEx = .ok (.nodev (.lit (.numL 0) pEx))
  ∧ toValue 1 (.lit (.strL "") pEx) ctxEx = .ok (.nodev (.lit (.strL "") pEx))
  ∧ toValue 1 (.lit (.boolL false) pEx) ctxEx = .ok (.nodev (.lit (.boolL false) pEx))
  ∧ toValue 1 (.lit .nullL pEx) ctxEx = .ok (.nodev (.lit .nullL pEx))
  ∧ toValue 1 (.lit (.numL 7) pEx) ctxEx = .ok (.numv 7) :=
  ⟨rfl, rfl, rfl, rfl, rfl⟩

/-- Claim C7: a rewritten call with an unbound, non-reserved bare callee is
replaced by a placeholder printing as `<symbol>(<printed args, comma-joined>)`:
the arguments' printed text is captured unevaluated into the recorded call
site and preserved in the placeholder, and only the callee is swapped. -/
theorem C7_call_placeholder (fuel : Nat) (sf : SourceFile) (nm : String)
    (chain own : List (String × Option Node)) (p pos : Pos) (args : List Node)
    (hnm : nm ≠ "") (hres : reservedTest nm = false)
    (hfv : (find_variable chain nm).isNone = true) :
    transformNode fuel sf (.call (.ref nm chain own p) args pos) =
      .ok ({ sf with
               callSites := sf.callSites ++ [(genSymbol sf, nm, args.map (printNode fuel), pos)],
               nextSymbol := sf.nextSymbol + 1 },
           some (.symbolConst
             (genSymbol sf ++ "(" ++ String.intercalate "," (args.map (printNode fuel)) ++ ")"))) := by
  simp [transformNode, hnm, hres, hfv, processFunction]

/-- Claim C7 witness: `bar(x+1, "s")` with `bar` unbound rewrites to the
placeholder `hl$0(x+1,"s")`, recording the printed argument text. -/
theorem C7_witness :
    reservedTest "bar" = false
  ∧ (find_variable [] "bar").isNone = true
  ∧ transformNode 3 sfEx barCall =
      .ok ({ sfEx with
               callSites := [("hl$0", "bar", ["x+1", "\"s\""], pEx)],
               nextSymbol := 1 },
           some (.symbolConst "hl$0(x+1,\"s\")")) :=
  ⟨by decide, rfl,
   C7_call_placeholder 3 sfEx "bar" [] [] pEx pEx
     [.binary "+" (.ref "x" [("x", some (.lit (.numL 5) pEx))] [] pEx) (.lit (.numL 1) pEx) pEx,
      .lit (.strL "s") pEx]
     (by decide) (by decide) rfl⟩

/-- Claim C8: a constructor call `new Name(...)` with an unbound bare callee
does not evaluate its arguments — the result is the same for every argument
list and no evaluator runs — records an instantiations entry
{symbol, Name, location}, and is replaced by a placeholder that prints as a
bare call `<symbol>()` with the original argument list dropped. -/
theorem C8_new_placeholder (fuel : Nat) (sf : SourceFile) (nm : String)
    (chain own : List (String × Option Node)) (p pos : Pos) (args : List Node)
    (hnm : nm ≠ "") (hfv : (find_variable chain nm).isNone = true) :
    transformNode fuel sf (.newE (.ref nm chain own p) args pos) =
      .ok ({ sf with instantiations := sf.instantiations ++ [(genSymbol sf, nm, pos)],
                     nextSymbol := sf.nextSymbol + 1 },
           some (.symbolConst (genSymbol sf ++ "()")))
  ∧ printNode 1 (.symbolConst (genSymbol sf ++ "()")) = genSymbol sf ++ "()" := by
  constructor
  · simp [transformNode, hnm, hfv, processNewClass]
  · rfl

/-- Claim C8 witness: `new Foo(9)` with `Foo` unbound becomes the bare
placeholder call `hl$0()` — the argument `9` is dropped — and an
instantiation entry is recorded. -/
theorem C8_witness :
    (find_variable [] "Foo").isNone = true
  ∧ (transformNode 2 sfEx fooNew =
      .ok ({ sfEx with instantiations := [("hl$0", "Foo", pEx)], nextSymbol := 1 },
           some (.symbolConst "hl$0()"))
     ∧ printNode 1 (.symbolConst "hl$0()") = "hl$0()") :=
  ⟨rfl, C8_new_placeholder 2 sfEx "Foo" [] [] pEx pEx [.lit (.numL 9) pEx] (by decide) rfl⟩

/-- Claim C10: a call or constructor expression whose callee is not a bare
identifier (it has no `.name` field — member expressions, nested calls,
literals) is left entirely unchanged by the callback: no replacement and no
recorded declaration. -/
theorem C10_nonbare_callee (fuel : Nat) (sf : SourceFile) (callee : Node) (args : List Node)
    (pos : Pos) (h : jsCalleeName callee = none) :
    transformNode fuel sf (.call callee args pos) = .ok (sf, none)
  ∧ transformNode fuel sf (.newE callee args pos) = .ok (sf, none) := by
  cases callee <;> simp_all [jsCalleeName, transformNode]

/-- Claim C10 witness: `obj.method(1)` and `new obj.method(1)` pass through
untouched — a dot callee has no `.name`. -/
theorem C10_witness :
    jsCalleeName (.dot (.ref "obj" [("obj", some (.lit (.numL 1) pEx))] [] pEx) "method" pEx) = none
  ∧ (transformNode 2 sfEx memberCall = .ok (sfEx, none)
     ∧ transformNode 2 sfEx
         (.newE (.dot (.ref "obj" [("obj", some (.lit (.numL 1) pEx))] [] pEx) "method" pEx)
           [.lit (.numL 1) pEx] pEx) = .ok (sfEx, none)) :=
  ⟨rfl, C10_nonbare_callee 2 sfEx
     (.dot (.ref "obj" [("obj", some (.lit (.numL 1) pEx))] [] pEx) "method" pEx)
     [.lit (.numL 1) pEx] pEx rfl⟩

/-- Claim C6 counterexample: evaluating `"a" + foo` with `foo` unbound fails
with a compile error that names only `o` — the single character captured by
`/(\w) is not defined/` — and nowhere quotes the full identifier `foo`. -/
theorem C6_counterexample :
    evalExpression c6ctx c6arg =
      .error (.error ("can" ++ sQuote ++ "t seem to determine value of " ++ sQuote ++ "o"
        ++ sQuote ++ " during import at app.hjs on line 1"))
  ∧ hasSubstr ("can" ++ sQuote ++ "t seem to determine value of " ++ sQuote ++ "o"
        ++ sQuote ++ " during import at app.hjs on line 1").toList
      (sQuote ++ "foo" ++ sQuote).toList = false :=
  ⟨rfl, rfl⟩

/-- Claim C6 (amended): when evaluation of a binary marker argument references
a name absent from the collected scope table, the Constant Evaluator fails
with an error carrying the originating file and line whose message quotes only
the final character of the missing identifier (the full identifier exactly
when it is a single character, e.g. `w`). -/
theorem C6_names_last_char (cn : String) (cchain cown : List (String × Option Node))
    (cp cpos : Pos) (cargs : List Node) (op : String) (l r : Node) (bpos : Pos)
    (scope : List (String × Res)) (nmStr : String) (ws : List Char) (c : Char)
    (hscope : collectScope (dictValues cown) = .ok scope)
    (heval : jsEval scope (.binary op l r bpos) = .error (.referenceError nmStr))
    (hnm : nmStr.toList = ws ++ [c])
    (hws : ∀ x ∈ ws, isWordChar x = true) (hc : isWordChar c = true) :
    evalExpression (.call (.ref cn cchain cown cp) cargs cpos) (.binary op l r bpos) =
      .error (.error ("can" ++ sQuote ++ "t seem to determine value of " ++ sQuote ++ c.toString
        ++ sQuote ++ " during import at " ++ cpos.file ++ " on line " ++ toString cpos.line)) := by
  have hcap : captureNotDefined (errMessage (.referenceError nmStr)) = some c := by
    unfold captureNotDefined errMessage
    have hsplit : (nmStr ++ " is not defined").toList = ws ++ c :: notDefinedChars := by
      have h1 : (nmStr ++ " is not defined").toList = nmStr.toList ++ " is not defined".toList := by
        simp [String.toList]
      rw [h1, hnm]
      simp [notDefinedChars]
    rw [hsplit]
    exact captureGo_name ws c hws hc
  unfold evalExpression
  simp only [ctxScopeVars, hscope, heval, hcap, startPos]

/-- Claim C6 witness: the amended statement applied to `"a" + foo` with `foo`
unbound in an empty collected scope: the message quotes `o`, the final
character of `foo`. -/
theorem C6_witness :
    jsEval [] (.binary "+" (.lit (.strL "a") pEx) (.ref "foo" [] [] pEx) pEx)
        = .error (.referenceError "foo")
  ∧ "foo".toList = ['f', 'o'] ++ ['o']
  ∧ evalExpression c6ctx c6arg =
      .error (.error ("can" ++ sQuote ++ "t seem to determine value of " ++ sQuote
        ++ Char.toString 'o' ++ sQuote ++ " during import at " ++ pEx.file ++ " on line "
        ++ toString pEx.line)) :=
  ⟨rfl, by decide,
   C6_names_last_char "native" [] [] pEx pEx [] "+" (.lit (.strL "a") pEx)
     (.ref "foo" [] [] pEx) pEx [] "foo" ['f', 'o'] 'o'
     rfl rfl (by decide) (by decide) (by decide)⟩

/-- Claim C9: the persisted cache table is written exactly when the backend's
`generate` callback reports no error and a truthy (non-empty) changed-file
marker; an error terminates the run with exit status 1 and the table is not
flushed. -/
theorem C9_cache_write_iff (st : DriverState) (err file : Option String)
    (h0 : st.exitCode = none) (hw : st.cacheWritten = false) :
    ((generateCallback st err file).cacheWritten = true
        ↔ (err = none ∧ truthyOpt file = true))
  ∧ (err.isSome = true →
      (generateCallback st err file).exitCode = some 1
      ∧ (generateCallback st err file).cacheWritten = false) := by
  unfold generateCallback
  rw [h0]
  cases err with
  | some e => simp [hw]
  | none =>
      cases file with
      | none => simp [truthyOpt, hw]
      | some s =>
          by_cases hs : s = ""
          · simp [truthyOpt, hs, hw]
          · simp only [truthyOpt]
            simp [hw, hs]

/-- Claim C9 witness: at a fresh driver state, an error from the backend exits
with status 1 without flushing, and with no error the flush happens exactly
for a non-empty marker. -/
theorem C9_witness :
    (((generateCallback ⟨[], [], false, none⟩ (some "boom") (some "x")).cacheWritten = true
        ↔ ((some "boom" : Option String) = none ∧ truthyOpt (some "x") = true))
      ∧ ((some "boom" : Option String).isSome = true →
          (generateCallback ⟨[], [], false, none⟩ (some "boom") (some "x")).exitCode = some 1
          ∧ (generateCallback ⟨[], [], false, none⟩ (some "boom") (some "x")).cacheWritten = false)) :=
  C9_cache_write_iff ⟨[], [], false, none⟩ (some "boom") (some "x") rfl rfl

/-- Claim C2 counterexample: a file whose first marker succeeds and whose
second marker fails to resolve aborts the run with a non-zero exit and leaves
the cache untouched, but the backend already holds the file's SourceUnit — it
was handed over by `addSource` before the transform — in a partially-declared,
never-finished state. -/
theorem C2_counterexample :
    (processFileFresh 8 ⟨[], [], false, none⟩ "app" "h" badAst).exitCode = some 1
  ∧ (processFileFresh 8 ⟨[], [], false, none⟩ "app" "h" badAst).fileCache = []
  ∧ (processFileFresh 8 ⟨[], [], false, none⟩ "app" "h" badAst).cacheWritten = false
  ∧ (processFileFresh 8 ⟨[], [], false, none⟩ "app" "h" badAst).backendSources = [incompleteUnit]
  ∧ incompleteUnit.nativeDecls = [[("a", Res.strv "b")]]
  ∧ incompleteUnit.finished = false :=
  ⟨rfl, rfl, rfl, rfl, rfl, rfl⟩

/-- Claim C2 (amended): any Constant Evaluator failure during marker
processing aborts the current file with a compile error — the run exits
non-zero, the marker is not silently skipped, nothing is recorded in the
in-memory cache table and the persisted table is not written; however, the
file's SourceUnit was already registered with the backend by `addSource`
before the transform began, so the backend holds the unit in whatever
partially-declared state the transform reached (its `generate` step is never
invoked on it). -/
theorem C2_abort_semantics (fuel : Nat) (st : DriverState) (fn hash : String) (ast : Node)
    (e : JSError) (h0 : st.exitCode = none)
    (hE : (transform fuel (emptySourceFile fn) ast).2 = .error e) :
    (processFileFresh fuel st fn hash ast).exitCode = some 1
  ∧ (processFileFresh fuel st fn hash ast).fileCache = st.fileCache
  ∧ (processFileFresh fuel st fn hash ast).cacheWritten = st.cacheWritten
  ∧ (processFileFresh fuel st fn hash ast).backendSources
      = st.backendSources ++ [(transform fuel (emptySourceFile fn) ast).1] := by
  unfold processFileFresh
  rw [h0]
  simp [hE]

/-- Claim C2 witness: the amended statement applied to the two-marker file
`badAst`, whose transform fails on the unresolved `import` argument. -/
theorem C2_witness :
    (transform 8 (emptySourceFile "app") badAst).2
        = .error (.error ("Couldn" ++ sQuote ++ "t find variable named: x at app.hjs on 1:1"))
  ∧ ((processFileFresh 8 ⟨[], [], false, none⟩ "app" "h" badAst).exitCode = some 1
     ∧ (processFileFresh 8 ⟨[], [], false, none⟩ "app" "h" badAst).fileCache = []
     ∧ (processFileFresh 8 ⟨[], [], false, none⟩ "app" "h" badAst).cacheWritten = false
     ∧ (processFileFresh 8 ⟨[], [], false, none⟩ "app" "h" badAst).backendSources
         = [] ++ [(transform 8 (emptySourceFile "app") badAst).1]) :=
  ⟨rfl, C2_abort_semantics 8 ⟨[], [], false, none⟩ "app" "h" badAst
     (.error ("Couldn" ++ sQuote ++ "t find variable named: x at app.hjs on 1:1")) rfl rfl⟩

/-- Claim C1 counterexample: the statement `native({a:"b"});` with `native`
shadowed by a local binding (`chainN`) is still processed as a marker — a
native declaration is recorded and the statement is replaced by an empty
statement — both by the callback and by the full traversal. -/
theorem C1_counterexample :
    (find_variable chainN "native").isSome = true
  ∧ transformNode 3 sfEx shadowedNativeStmt = .ok (incompleteUnit, some .emptyStmt)
  ∧ transform 6 sfEx shadowedNativeStmt = (incompleteUnit, .ok .emptyStmt) :=
  ⟨rfl, rfl, rfl⟩

/-- Claim C1 (amended): the statement-position marker branch never consults
lexical bindings — a statement call whose reserved-looking callee is shadowed
by a local binding is treated exactly as one whose callee is unbound: the
callback's behaviour is identical under any two scope chains for the callee. -/
theorem C1_shadowing_not_consulted (fuel : Nat) (sf : SourceFile) (nm : String)
    (chain chain' own : List (String × Option Node)) (p bpos spos : Pos) (args : List Node) :
    transformNode fuel sf (.simpleStmt (.call (.ref nm chain own p) args bpos) spos)
      = transformNode fuel sf (.simpleStmt (.call (.ref nm chain' own p) args bpos) spos) := by
  have htv : ∀ v, toValue fuel v (.simpleStmt (.call (.ref nm chain own p) args bpos) spos)
      = toValue fuel v (.simpleStmt (.call (.ref nm chain' own p) args bpos) spos) :=
    fun v => @toValue_ctx_congr
      (.simpleStmt (.call (.ref nm chain own p) args bpos) spos)
      (.simpleStmt (.call (.ref nm chain' own p) args bpos) spos) rfl rfl fuel v
  have hmk : ∀ a, makeDictionaryFromArg fuel a (.call (.ref nm chain own p) args bpos)
      = makeDictionaryFromArg fuel a (.call (.ref nm chain' own p) args bpos) :=
    fun a => makeDictionaryFromArgAux_congr a
      (fun v => @toValue_ctx_congr (.call (.ref nm chain own p) args bpos)
        (.call (.ref nm chain' own p) args bpos) rfl rfl fuel v)
  simp only [transformNode, jsExpression, jsNameStr, jsArgs]
  by_cases hres : reservedTest nm
  · simp only [hres, if_true]
    cases args with
    | nil => rfl
    | cons arg rest =>
        split <;> simp_all
  · simp [hres]
